import Mathlib

/-!
Shallow embedding of the RAG pipeline server (`src/server.js`).

The server exposes two endpoints (`/api/index-document`, `/api/answer-question`)
that orchestrate a chunk → embed → upsert pipeline and a retrieve → generate
pipeline.  External collaborators (the text splitter, the embedding provider,
the vector store, the language model) are modelled as oracle fields of an
environment structure; a fallible network call is an `Except String` valued
oracle, and an upsert call is a per-call success flag.  Each pipeline function
returns its result together with the list of external calls it issued, so that
"component X was never invoked" is a statement about that trace.

JavaScript dynamic values that reach the validation code are modelled by
`JsVal`; numbers are modelled by `Int` (no claim depends on float arithmetic,
and every non-string number is rejected by the `typeof` check), and the
contents of arrays and objects are never inspected by the validation code, so
they are modelled by content-free constructors.  JS template interpolation of a
natural number (`${i}`) is decimal printing, embedded as `decRepr`.
-/

namespace Rag

/-- A JavaScript value as seen by the request-body validation code. -/
inductive JsVal where
  | undef
  | null
  | bool (b : Bool)
  | num (n : Int)
  | str (s : String)
  | arr
  | obj
deriving DecidableEq

/-- JS truthiness (`!v` is the negation of this).  `undefined`, `null`,
`false`, `0` and `""` are falsy; arrays and objects are always truthy. -/
def truthy : JsVal → Bool
  | JsVal.undef => false
  | JsVal.null => false
  | JsVal.bool b => b
  | JsVal.num n => n != 0
  | JsVal.str s => s != ""
  | JsVal.arr => true
  | JsVal.obj => true

/-- `typeof v === 'string'`. -/
def isString : JsVal → Bool
  | JsVal.str _ => true
  | _ => false

/-- The string payload of a JS value known to be a string. -/
def strOf : JsVal → String
  | JsVal.str s => s
  | _ => ""

/-- Decimal printing of a natural number, the meaning of `${i}` in a JS
template literal for a nonnegative integer. -/
def decRepr (n : Nat) : String :=
  if n = 0 then "0" else String.mk ((Nat.digits 10 n).reverse.map Nat.digitChar)

/-- An embedding vector.  The numeric contents are never inspected by the
orchestration code; only vector counts and lengths are. -/
abbrev Vec : Type := List Int

/-- A record upserted into the vector index: `{id, values, metadata: {text,
timestamp}}` (`storeInPinecone`, src/server.js:79-83). -/
structure PineRecord where
  id : String
  values : Vec
  text : String
  timestamp : String

/-- A match returned by the vector-store query.  The similarity score is never
read by the server code, so it is not modelled; `metadata` may be absent, and
its `text` field may be absent or hold any JS value. -/
structure MatchMeta where
  text : Option JsVal

structure SearchMatch where
  metadata : Option MatchMeta

/-- One external call issued by the pipeline. -/
inductive Effect where
  | splitCall
  | embedCall
  | upsertCall (batch : List PineRecord)
  | embedQueryCall
  | searchCall
  | llmCall (prompt : String)

/-- `match.metadata?.text` — optional chaining and a missing field both give
`undefined`. -/
def metaTextVal (m : SearchMatch) : JsVal :=
  match m.metadata with
  | none => JsVal.undef
  | some md => md.text.getD JsVal.undef

/-- The retrieval filter `match.metadata?.text && typeof match.metadata.text
=== 'string'` (src/server.js:122). -/
def keepMatch (m : SearchMatch) : Bool :=
  truthy (metaTextVal m) && isString (metaTextVal m)

/-- The projection `match => match.metadata.text` applied after the filter. -/
def matchTextStr (m : SearchMatch) : String :=
  strOf (metaTextVal m)

/-- Modelled from the spec: the chunker configuration guard.  The splitter
implementation (langchain's `RecursiveCharacterTextSplitter`) is not under
`src/`; §4.1 and §8 of the spec require that every configuration with
`chunkOverlap ≥ chunkSize` be rejected before any splitting happens. -/
def mkSplitter (chunkSize chunkOverlap : Nat) : Except String (Nat × Nat) :=
  if chunkSize ≤ chunkOverlap then Except.error "Cannot have chunkOverlap >= chunkSize"
  else Except.ok (chunkSize, chunkOverlap)

/-- `processDocument` (src/server.js:24-44): validate, build the splitter with
`chunkSize 500, chunkOverlap 100`, split, and reject a zero-chunk result. -/
def processDocument (split : String → List String) (documentText : JsVal) :
    Except String (List String) × List Effect :=
  if !(truthy documentText && isString documentText) then
    (Except.error "Invalid document text provided", [])
  else
    match mkSplitter 500 100 with
    | Except.error e => (Except.error e, [])
    | Except.ok _ =>
      let chunks := split (strOf documentText)
      if chunks.length = 0 then
        (Except.error "Document chunking resulted in zero chunks", [Effect.splitCall])
      else
        (Except.ok chunks, [Effect.splitCall])

/-- `generateEmbeddings` (src/server.js:46-67): reject an empty chunk list,
call the embedding provider, and reject an empty or zero-dimensional result. -/
def generateEmbeddings (embedDocs : List String → Except String (List Vec))
    (chunks : List String) : Except String (List Vec) × List Effect :=
  if chunks.length = 0 then
    (Except.error "Invalid chunks array provided", [])
  else
    match embedDocs chunks with
    | Except.error e => (Except.error e, [Effect.embedCall])
    | Except.ok vectors =>
      if vectors.length = 0 || (vectors.headD []).length = 0 then
        (Except.error "Failed to generate valid embeddings - empty vectors returned",
          [Effect.embedCall])
      else
        (Except.ok vectors, [Effect.embedCall])

/-- The id built for chunk `i`:
`` `chunk_${i}_${Date.now()}_${Math.random().toString(36).substr(2, 9)}` ``.
The `Date.now()`/`Math.random()` part is an arbitrary per-index string. -/
def recordId (i : Nat) (noise : String) : String :=
  "chunk_" ++ decRepr i ++ "_" ++ noise

/-- `chunks.map((chunk, i) => ({id, values: vectors[i], metadata}))`
(src/server.js:79-83).  `idNoise i` is the nondeterministic tail of record
`i`'s id and `ts i` its `new Date().toISOString()` timestamp. -/
def mkRecords (chunks : List String) (vectors : List Vec) (idNoise ts : Nat → String) :
    List PineRecord :=
  chunks.mapIdx fun i chunk => ⟨recordId i (idNoise i), vectors.getD i [], chunk, ts i⟩

/-- The batching loop `for (let i = 0; i < records.length; i += batchSize)`
with `batchSize = 100`: the list of `records.slice(i, i + 100)` batches in
submission order. -/
def batches {α : Type} : List α → List (List α)
  | [] => []
  | r :: rs => ((r :: rs).take 100) :: batches ((r :: rs).drop 100)
termination_by l => l.length
decreasing_by simp [List.length_drop]; omega

/-- Run the sequential `await index.upsert(batch)` loop: `ok k` tells whether
the `k`-th upsert call succeeds.  Returns the batches attempted in order, the
records durably stored, and whether the whole loop completed. -/
def runUpserts {α : Type} (ok : Nat → Bool) :
    Nat → List (List α) → List (List α) × List α × Bool
  | _, [] => ([], [], true)
  | k, b :: bs =>
    if ok k then
      let r := runUpserts ok (k + 1) bs
      (b :: r.1, b ++ r.2.1, r.2.2)
    else
      ([b], [], false)

/-- The environment of one indexing request: the splitter, the embedding
provider, the per-call upsert outcome, the nondeterministic id/timestamp
inputs, and the `NODE_ENV === 'development'` flag. -/
structure IndexEnv where
  splitText : String → List String
  embedDocs : List String → Except String (List Vec)
  upsertOk : Nat → Bool
  idNoise : Nat → String
  ts : Nat → String
  devMode : Bool

/-- `storeInPinecone` (src/server.js:69-94): length check, record
construction, sequential batched upsert, returning the record count. -/
def storeInPinecone (env : IndexEnv) (chunks : List String) (vectors : List Vec) :
    Except String Nat × List Effect :=
  if chunks.length != vectors.length then
    (Except.error "Mismatch between chunks and vectors length", [])
  else
    let records := mkRecords chunks vectors env.idNoise env.ts
    let run := runUpserts env.upsertOk 0 (batches records)
    if run.2.2 then
      (Except.ok records.length, run.1.map Effect.upsertCall)
    else
      (Except.error "Pinecone upsert failed", run.1.map Effect.upsertCall)

/-- The JSON response bodies the server produces, together with the HTTP
status.  Absent JSON fields are `none`; `duration` (wall-clock time) is not
modelled. -/
structure HttpResponse where
  status : Nat
  success : Bool
  error : Option String
  message : Option String
  answer : Option String
  chunksRetrieved : Option Nat
  chunkCount : Option Nat
  recordCount : Option Nat
  details : Option String
deriving DecidableEq

/-- A 400 validation response `{error, success: false}`. -/
def clientErr (msg : String) : HttpResponse :=
  ⟨400, false, some msg, none, none, none, none, none, none⟩

/-- The 500 response of the indexing endpoint; `details` only in dev mode. -/
def indexFailure (devMode : Bool) (cause : String) : HttpResponse :=
  ⟨500, false, some "Failed to index document. Please try again.", none, none, none, none, none,
    if devMode then some cause else none⟩

/-- The 200 response of a successful indexing request. -/
def indexSuccess (chunkCount recordCount : Nat) : HttpResponse :=
  ⟨200, true, none,
    some ("Document successfully indexed with " ++ decRepr chunkCount ++ " chunks."),
    none, none, some chunkCount, some recordCount, none⟩

/-- `POST /api/index-document` (src/server.js:188-244). -/
def indexDocument (env : IndexEnv) (documentText : JsVal) : HttpResponse × List Effect :=
  if !(truthy documentText) then
    (clientErr "Document text is required.", [])
  else if !(isString documentText) then
    (clientErr "Document text must be a string.", [])
  else if (strOf documentText).length > 500000 then
    (clientErr "Document text exceeds maximum length of 500,000 characters.", [])
  else
    match processDocument env.splitText documentText with
    | (Except.error e, eff1) => (indexFailure env.devMode e, eff1)
    | (Except.ok chunks, eff1) =>
      match generateEmbeddings env.embedDocs chunks with
      | (Except.error e, eff2) => (indexFailure env.devMode e, eff1 ++ eff2)
      | (Except.ok vectors, eff2) =>
        match storeInPinecone env chunks vectors with
        | (Except.error e, eff3) => (indexFailure env.devMode e, eff1 ++ eff2 ++ eff3)
        | (Except.ok recordCount, eff3) =>
          (indexSuccess chunks.length recordCount, eff1 ++ eff2 ++ eff3)

/-- The environment of one answering request. -/
structure AnswerEnv where
  embedQuery : String → Except String Vec
  search : Vec → Nat → Except String (List SearchMatch)
  llm : String → Except String String
  devMode : Bool

/-- `queryDocument` (src/server.js:96-127): validate, embed the question,
query the store with `topK: 3`, filter to matches carrying a non-empty string
`text`, and project to those strings in the store's order. -/
def queryDocument (env : AnswerEnv) (question : JsVal) :
    Except String (List String) × List Effect :=
  if !(truthy question && isString question) then
    (Except.error "Invalid question provided", [])
  else
    match env.embedQuery (strOf question) with
    | Except.error e => (Except.error e, [Effect.embedQueryCall])
    | Except.ok queryVector =>
      match env.search queryVector 3 with
      | Except.error e => (Except.error e, [Effect.embedQueryCall, Effect.searchCall])
      | Except.ok searchResults =>
        (Except.ok ((searchResults.filter keepMatch).map matchTextStr),
          [Effect.embedQueryCall, Effect.searchCall])

/-- The grounded prompt of `generateAnswer` (src/server.js:140-148), a single
template literal over the question and the bracket-indexed context items. -/
def buildPrompt (question : String) (context : List String) : String :=
  "You are a helpful assistant. Answer the question using ONLY the provided context.\nIf the answer is not found in the context, state that clearly and do not make up information.\n\nQuestion: "
    ++ question
    ++ "\n\nContext:\n"
    ++ String.intercalate "\n\n" (context.mapIdx fun i c => "[" ++ decRepr (i + 1) ++ "] " ++ c)
    ++ "\n\nAnswer with citations (e.g., [1], [2]):"

/-- `generateAnswer` (src/server.js:129-157): reject an empty context, then
issue exactly one LLM call with the built prompt and return its text. -/
def generateAnswer (llm : String → Except String String) (question : String)
    (context : List String) : Except String String × List Effect :=
  if context.length = 0 then
    (Except.error "No context available for answer generation", [])
  else
    (llm (buildPrompt question context), [Effect.llmCall (buildPrompt question context)])

/-- The canned answer of the empty-retrieval branch. -/
def notFoundAnswer : String :=
  "I couldn't find any relevant information in the document store to answer that question."

/-- The 200 response of the empty-retrieval branch (src/server.js:282-287). -/
def answerNotFound : HttpResponse :=
  ⟨200, true, none, none, some notFoundAnswer, some 0, none, none, none⟩

/-- The 200 response of a successful answering request. -/
def answerSuccess (answer : String) (n : Nat) : HttpResponse :=
  ⟨200, true, none, none, some answer, some n, none, none, none⟩

/-- The 500 response of the answering endpoint; `details` only in dev mode. -/
def answerFailure (devMode : Bool) (cause : String) : HttpResponse :=
  ⟨500, false, some "Failed to answer the question. Please try again.", none, none, none, none,
    none, if devMode then some cause else none⟩

/-- `POST /api/answer-question` (src/server.js:247-314). -/
def answerQuestion (env : AnswerEnv) (question : JsVal) : HttpResponse × List Effect :=
  if !(truthy question) then
    (clientErr "Question is required.", [])
  else if !(isString question) then
    (clientErr "Question must be a string.", [])
  else if (strOf question).length > 1000 then
    (clientErr "Question exceeds maximum length of 1,000 characters.", [])
  else
    match queryDocument env question with
    | (Except.error e, eff1) => (answerFailure env.devMode e, eff1)
    | (Except.ok relevantChunks, eff1) =>
      if relevantChunks.length = 0 then
        (answerNotFound, eff1)
      else
        match generateAnswer env.llm (strOf question) relevantChunks with
        | (Except.error e, eff2) => (answerFailure env.devMode e, eff1 ++ eff2)
        | (Except.ok answer, eff2) =>
          (answerSuccess answer relevantChunks.length, eff1 ++ eff2)

/-- The fixed system instruction opening the prompt, up to the question. -/
def sysInstr : String :=
  "You are a helpful assistant. Answer the question using ONLY the provided context.\nIf the answer is not found in the context, state that clearly and do not make up information.\n\nQuestion: "

/-- The fixed closing citation instruction of the prompt. -/
def citeInstr : String := "\n\nAnswer with citations (e.g., [1], [2]):"

/-- The context item for 0-based position `i`: `` `[${i + 1}] ${c}` ``. -/
def contextBlock (i : Nat) (c : String) : String :=
  "[" ++ decRepr (i + 1) ++ "] " ++ c

/-- The bracket-indexed context items, in input order. -/
def contextBlocks (context : List String) : List String :=
  context.mapIdx contextBlock

/-- The decimal value of a digit character. -/
def charVal (c : Char) : Nat := c.toNat - 48

/-- The number denoted by a big-endian list of decimal digit characters. -/
def strVal (l : List Char) : Nat := l.foldl (fun a c => 10 * a + charVal c) 0

/-! ### Decimal printing: every character is a digit, and printing is injective -/

theorem digitChar_isDigit {d : Nat} (h : d < 10) : (Nat.digitChar d).isDigit = true := by
  interval_cases d <;> decide

theorem charVal_digitChar {d : Nat} (h : d < 10) : charVal (Nat.digitChar d) = d := by
  interval_cases d <;> decide

theorem decRepr_all_digits (n : Nat) : ∀ c ∈ (decRepr n).data, c.isDigit = true := by
  intro c hc
  by_cases h : n = 0
  · subst h
    simp only [decRepr, if_pos rfl] at hc
    have : c = '0' := by simpa using hc
    subst this; decide
  · simp only [decRepr, if_neg h] at hc
    obtain ⟨d, hd, rfl⟩ := List.mem_map.mp hc
    have hd10 : d < 10 :=
      Nat.digits_lt_base (by norm_num) (List.mem_reverse.mp hd)
    exact digitChar_isDigit hd10

theorem foldl_base10 (L : List Nat) (a : Nat) :
    L.foldl (fun x d => 10 * x + d) a = Nat.ofDigits 10 L.reverse + a * 10 ^ L.length := by
  induction L generalizing a with
  | nil => simp [Nat.ofDigits]
  | cons d L ih =>
    simp only [List.foldl_cons, List.reverse_cons, List.length_cons]
    rw [ih, Nat.ofDigits_append]
    simp only [Nat.ofDigits, List.length_reverse, Nat.cast_id, mul_zero, add_zero]
    ring

theorem strVal_decRepr (n : Nat) : strVal (decRepr n).data = n := by
  by_cases h : n = 0
  · subst h; decide
  · have hdata : (decRepr n).data = ((Nat.digits 10 n).reverse.map Nat.digitChar) := by
      simp [decRepr, if_neg h]
    rw [strVal, hdata, List.foldl_map, ]
    have hcong :
        ((Nat.digits 10 n).reverse.foldl (fun x d => 10 * x + charVal (Nat.digitChar d)) 0)
          = ((Nat.digits 10 n).reverse.foldl (fun x d => 10 * x + d) 0) := by
      apply List.foldl_ext
      intro a d hd
      rw [charVal_digitChar (Nat.digits_lt_base (by norm_num) (List.mem_reverse.mp hd))]
    rw [hcong, foldl_base10]
    simp [Nat.ofDigits_digits]

theorem decRepr_injective : Function.Injective decRepr := by
  intro a b h
  have h2 := congrArg (fun s : String => strVal s.data) h
  simpa [strVal_decRepr] using h2

theorem str_ext {s t : String} (h : s.data = t.data) : s = t := by
  cases s; cases t; exact congrArg String.mk h

/-- Splitting a character list at its first non-digit character is
unambiguous: two decompositions digit-run ++ separator ++ rest coincide. -/
theorem digit_block_split :
    ∀ (xs ys : List Char) (c c' : Char) (as bs : List Char),
      (∀ x ∈ xs, x.isDigit = true) → (∀ y ∈ ys, y.isDigit = true) →
      c.isDigit = false → c'.isDigit = false →
      xs ++ c :: as = ys ++ c' :: bs → xs = ys ∧ c = c' ∧ as = bs := by
  intro xs
  induction xs with
  | nil =>
    intro ys c c' as bs _ hys hc hc' heq
    cases ys with
    | nil => simpa using heq
    | cons y ys =>
      exfalso
      have h1 : c = y := by simpa using congrArg (fun l => l.headD ' ') heq
      have := hys y (List.mem_cons_self y ys)
      rw [← h1, hc] at this
      exact Bool.false_ne_true this
  | cons x xs ih =>
    intro ys c c' as bs hxs hys hc hc' heq
    cases ys with
    | nil =>
      exfalso
      have h1 : x = c' := by simpa using congrArg (fun l => l.headD ' ') heq
      have := hxs x (List.mem_cons_self x xs)
      rw [h1, hc'] at this
      exact Bool.false_ne_true this
    | cons y ys =>
      have h1 : x = y := by simpa using congrArg (fun l => l.headD ' ') heq
      have h2 : xs ++ c :: as = ys ++ c' :: bs := by
        simpa using congrArg List.tail heq
      obtain ⟨e1, e2, e3⟩ := ih ys c c' as bs
        (fun z hz => hxs z (List.mem_cons_of_mem x hz))
        (fun z hz => hys z (List.mem_cons_of_mem y hz)) hc hc' h2
      exact ⟨by rw [h1, e1], e2, e3⟩

/-- Two record ids agree only when they were built for the same chunk index,
whatever the nondeterministic timestamp/random tails are. -/
theorem recordId_inj {i j : Nat} {a b : String} (h : recordId i a = recordId j b) : i = j := by
  have hd := congrArg String.data h
  simp only [recordId, String.data_append, List.append_assoc] at hd
  have hd2 : (decRepr i).data ++ '_' :: a.data = (decRepr j).data ++ '_' :: b.data := by
    have := List.append_cancel_left hd
    simpa using this
  have := digit_block_split (decRepr i).data (decRepr j).data '_' '_' a.data b.data
    (decRepr_all_digits i) (decRepr_all_digits j) (by decide) (by decide) hd2
  exact decRepr_injective (str_ext this.1)

/-- Two bracket-indexed context items agree only at the same index. -/
theorem contextBlock_inj {i j : Nat} {c d : String}
    (h : contextBlock i c = contextBlock j d) : i = j := by
  have hd := congrArg String.data h
  simp only [contextBlock, String.data_append, List.append_assoc] at hd
  have hd2 : (decRepr (i + 1)).data ++ ']' :: (" " ++ c).data
      = (decRepr (j + 1)).data ++ ']' :: (" " ++ d).data := by
    have := List.append_cancel_left hd
    simpa using this
  have := digit_block_split (decRepr (i + 1)).data (decRepr (j + 1)).data ']' ']'
    (" " ++ c).data (" " ++ d).data
    (decRepr_all_digits (i + 1)) (decRepr_all_digits (j + 1)) (by decide) (by decide) hd2
  have := decRepr_injective (str_ext this.1)
  omega

theorem mkRecords_map_id (chunks : List String) (vectors : List Vec)
    (idNoise ts : Nat → String) :
    (mkRecords chunks vectors idNoise ts).map PineRecord.id
      = chunks.enum.map (fun p => recordId p.1 (idNoise p.1)) := by
  simp [mkRecords, List.mapIdx_eq_enum_map, List.map_map, Function.comp_def, Function.uncurry]

theorem ids_nodup_aux (chunks : List String) (idNoise : Nat → String) :
    (chunks.enum.map (fun p => recordId p.1 (idNoise p.1))).Nodup := by
  rw [List.nodup_iff_injective_get]
  intro p q hpq
  simp only [List.get_eq_getElem, List.getElem_map, List.getElem_enum] at hpq
  exact Fin.ext (recordId_inj hpq)

theorem contextBlocks_get (ctx : List String) (i : Nat)
    (h : i < (contextBlocks ctx).length) (h' : i < ctx.length) :
    (contextBlocks ctx).get ⟨i, h⟩ = contextBlock i (ctx.get ⟨i, h'⟩) := by
  simp only [contextBlocks]
  exact List.get_mapIdx ctx contextBlock i h'

theorem contextBlocks_nodup (ctx : List String) : (contextBlocks ctx).Nodup := by
  rw [List.nodup_iff_injective_get]
  intro p q hpq
  have hlen : (contextBlocks ctx).length = ctx.length := by
    simp [contextBlocks, List.length_mapIdx]
  have hp : p.val < ctx.length := by have := p.isLt; omega
  have hq : q.val < ctx.length := by have := q.isLt; omega
  rw [contextBlocks_get ctx p.val p.isLt hp, contextBlocks_get ctx q.val q.isLt hq] at hpq
  exact Fin.ext (contextBlock_inj hpq)

/-! ### Batching -/

theorem flatten_batches {α : Type} (rs : List α) : (batches rs).flatten = rs := by
  induction rs using batches.induct with
  | case1 => simp [batches]
  | case2 r rs ih =>
    rw [batches]
    rw [List.flatten_cons, ih, List.take_append_drop]

theorem batches_mem {α : Type} {b : List α} {rs : List α} (h : b ∈ batches rs) :
    b.length ≤ 100 ∧ b ≠ [] := by
  induction rs using batches.induct with
  | case1 => simp [batches] at h
  | case2 r rs ih =>
    rw [batches] at h
    rcases List.mem_cons.mp h with h1 | h2
    · subst h1
      refine ⟨by simp [List.length_take], by simp⟩
    · exact ih h2

theorem runUpserts_fail_spec {α : Type} (ok : Nat → Bool) :
    ∀ (bs : List (List α)) (s k : Nat), k < bs.length →
      (∀ j, j < k → ok (s + j) = true) → ok (s + k) = false →
      runUpserts ok s bs = (bs.take (k + 1), (bs.take k).flatten, false) := by
  intro bs
  induction bs with
  | nil => intro s k hk; exact absurd hk (by simp)
  | cons b bs ih =>
    intro s k hk hbefore hfail
    cases k with
    | zero =>
      have h0 : ok s = false := by simpa using hfail
      simp [runUpserts, h0]
    | succ k =>
      have h0 : ok s = true := by simpa using hbefore 0 (Nat.succ_pos k)
      have hk' : k < bs.length := by simpa using hk
      have hbefore' : ∀ j, j < k → ok (s + 1 + j) = true := by
        intro j hj
        have := hbefore (j + 1) (by omega)
        simpa [Nat.add_assoc, Nat.add_comm 1 j] using this
      have hfail' : ok (s + 1 + k) = false := by
        have : s + (k + 1) = s + 1 + k := by omega
        rwa [this] at hfail
      simp only [runUpserts, h0, if_true, ih (s + 1) k hk' hbefore' hfail']
      simp [List.take_cons, List.flatten_cons]

theorem runUpserts_ok_spec {α : Type} (ok : Nat → Bool) :
    ∀ (bs : List (List α)) (s : Nat), (∀ j, ok j = true) →
      runUpserts ok s bs = (bs, bs.flatten, true) := by
  intro bs
  induction bs with
  | nil => intro s _; simp [runUpserts]
  | cons b bs ih =>
    intro s hok
    simp [runUpserts, hok s, ih (s + 1) hok, List.flatten_cons]

/-! ### Claim theorems -/

/-- C1: for every question string and every non-empty context sequence, the
prompt built by the answer generator is a deterministic function of
(question, context) consisting of the system instruction (restricting the
model to the supplied context and telling it to state when the answer is
absent), the literal question, the context items each exactly once prefixed
by their 1-based bracketed index in input order with consecutive items
separated by a blank line, and the closing citation instruction. -/
theorem c1_buildPrompt_structure (q : String) (ctx : List String) (_hne : ctx ≠ []) :
    buildPrompt q ctx
        = sysInstr ++ q ++ "\n\nContext:\n"
            ++ String.intercalate "\n\n" (contextBlocks ctx) ++ citeInstr
    ∧ (contextBlocks ctx).length = ctx.length
    ∧ (∀ i (h : i < (contextBlocks ctx).length) (h' : i < ctx.length),
        (contextBlocks ctx).get ⟨i, h⟩ = "[" ++ decRepr (i + 1) ++ "] " ++ ctx.get ⟨i, h'⟩)
    ∧ (contextBlocks ctx).Nodup := by
  refine ⟨rfl, by simp [contextBlocks, List.length_mapIdx], ?_, contextBlocks_nodup ctx⟩
  intro i h h'
  exact contextBlocks_get ctx i h h'

/-- Witness for C1 at a concrete question and two-item context. -/
theorem c1_witness :
    buildPrompt "Q" ["alpha", "beta"]
      = sysInstr ++ "Q" ++ "\n\nContext:\n"
          ++ String.intercalate "\n\n" (contextBlocks ["alpha", "beta"]) ++ citeInstr :=
  (c1_buildPrompt_structure "Q" ["alpha", "beta"] (by simp)).1

/-- C2: a valid answer request whose retrieval step filters down to zero
chunks gets a 200 success response carrying `chunksRetrieved: 0` and the
canned "not found" answer, and no LLM call is ever issued; the empty
retrieval result is not an error. -/
theorem c2_answer_empty_retrieval (env : AnswerEnv) (q : String) (hne : q ≠ "")
    (hlen : q.length ≤ 1000) (v : Vec) (ms : List SearchMatch)
    (hembed : env.embedQuery q = Except.ok v)
    (hsearch : env.search v 3 = Except.ok ms)
    (hfilter : ms.filter keepMatch = []) :
    answerQuestion env (JsVal.str q)
        = (answerNotFound, [Effect.embedQueryCall, Effect.searchCall])
    ∧ answerNotFound.status = 200
    ∧ answerNotFound.success = true
    ∧ answerNotFound.chunksRetrieved = some 0
    ∧ answerNotFound.answer = some notFoundAnswer
    ∧ (∀ p, Effect.llmCall p ∉ [Effect.embedQueryCall, Effect.searchCall]) := by
  have htr : truthy (JsVal.str q) = true := by simp [truthy, hne]
  have hquery : queryDocument env (JsVal.str q)
      = (Except.ok ([] : List String), [Effect.embedQueryCall, Effect.searchCall]) := by
    simp only [queryDocument, truthy, isString, strOf]
    simp [hne, hembed, hsearch, hfilter]
  refine ⟨?_, rfl, rfl, rfl, rfl, by intro p; simp⟩
  simp only [answerQuestion, htr, isString, strOf, Bool.not_true]
  rw [if_neg (by simp), if_neg (by simp), if_neg (by omega)]
  simp [hquery]

/-- Witness for C2 with an environment whose store returns no matches. -/
theorem c2_witness :
    answerQuestion
        ⟨fun _ => Except.ok [], fun _ _ => Except.ok [], fun _ => Except.ok "", false⟩
        (JsVal.str "q")
      = (answerNotFound, [Effect.embedQueryCall, Effect.searchCall]) :=
  (c2_answer_empty_retrieval _ "q" (by decide) (by decide) [] [] rfl rfl rfl).1

/-- C3: the indexing endpoint validates presence, then string-ness, then the
500,000-character bound, the first failing check determines the 400 response,
the three messages are pairwise distinct, and no validation failure issues
any external call. -/
theorem c3_index_validation (env : IndexEnv) (dt : JsVal) :
    (truthy dt = false →
      indexDocument env dt = (clientErr "Document text is required.", []))
    ∧ (truthy dt = true → isString dt = false →
      indexDocument env dt = (clientErr "Document text must be a string.", []))
    ∧ (truthy dt = true → isString dt = true → (strOf dt).length > 500000 →
      indexDocument env dt
        = (clientErr "Document text exceeds maximum length of 500,000 characters.", []))
    ∧ ("Document text is required." ≠ "Document text must be a string."
      ∧ "Document text is required."
          ≠ "Document text exceeds maximum length of 500,000 characters."
      ∧ "Document text must be a string."
          ≠ "Document text exceeds maximum length of 500,000 characters.") := by
  refine ⟨?_, ?_, ?_, by decide, by decide, by decide⟩
  · intro h; simp [indexDocument, h]
  · intro h1 h2; simp [indexDocument, h1, h2]
  · intro h1 h2 h3; simp [indexDocument, h1, h2, h3]

/-- Witness for C3 at an absent request field. -/
theorem c3_witness :
    indexDocument ⟨fun _ => [], fun _ => Except.ok [], fun _ => true, fun _ => "", fun _ => "",
        false⟩ JsVal.undef
      = (clientErr "Document text is required.", []) :=
  (c3_index_validation _ JsVal.undef).1 rfl

/-- C4: for non-empty input text the chunking step returns at least one
chunk whenever it succeeds; if the underlying split of a non-empty input
yields zero chunks the step fails with the zero-chunks invariant error, the
endpoint answers with the 500 server-error response (not a 400 client
error), and neither the embedder nor the vector store is invoked. -/
theorem c4_chunking (env : IndexEnv) (s : String) (hs : s ≠ "") :
    (∀ cs, (processDocument env.splitText (JsVal.str s)).1 = Except.ok cs → 1 ≤ cs.length)
    ∧ (env.splitText s = [] →
        processDocument env.splitText (JsVal.str s)
            = (Except.error "Document chunking resulted in zero chunks", [Effect.splitCall])
        ∧ (s.length ≤ 500000 →
            indexDocument env (JsVal.str s)
                = (indexFailure env.devMode "Document chunking resulted in zero chunks",
                    [Effect.splitCall])
            ∧ (indexFailure env.devMode "Document chunking resulted in zero chunks").status
                = 500)) := by
  have hcond : (truthy (JsVal.str s) && isString (JsVal.str s)) = true := by
    simp [truthy, isString, hs]
  constructor
  · intro cs h
    simp only [processDocument, hcond, Bool.not_true, mkSplitter, strOf] at h
    rw [if_neg (by norm_num)] at h
    by_cases hz : (env.splitText s).length = 0
    · rw [if_neg (by simp)] at h
      rw [if_pos hz] at h
      exact absurd h (by simp)
    · rw [if_neg (by simp)] at h
      rw [if_neg hz] at h
      have : cs = env.splitText s := by simpa using h.symm
      subst this
      omega
  · intro hsplit
    have hproc : processDocument env.splitText (JsVal.str s)
        = (Except.error "Document chunking resulted in zero chunks", [Effect.splitCall]) := by
      simp only [processDocument, hcond, Bool.not_true, mkSplitter, strOf]
      rw [if_neg (by simp)]
      rw [if_neg (by norm_num)]
      rw [if_pos (by simp [hsplit])]
    refine ⟨hproc, fun hlen => ⟨?_, rfl⟩⟩
    have htr : truthy (JsVal.str s) = true := by simp [truthy, hs]
    simp only [indexDocument, htr, isString, strOf, Bool.not_true]
    rw [if_neg (by simp)]
    rw [if_neg (by simp)]
    rw [if_neg (by omega)]
    rw [hproc]

/-- Witness for C4 with a splitter that returns zero chunks on "x". -/
theorem c4_witness :
    indexDocument ⟨fun _ => [], fun _ => Except.ok [], fun _ => true, fun _ => "", fun _ => "",
        false⟩ (JsVal.str "x")
      = (indexFailure false "Document chunking resulted in zero chunks", [Effect.splitCall]) :=
  (((c4_chunking _ "x" (by decide)).2 rfl).2 (by decide)).1

/-- C5: the retriever embeds the question, queries the store with `topK = 3`,
keeps exactly the matches whose metadata carries a non-empty string text
field, and projects them to their text in the store's order — so the result
has at most 3 elements, all non-empty, and is an order-preserving
subsequence of the matches' projection. -/
theorem c5_retriever (env : AnswerEnv) (q : String) (hq : q ≠ "")
    (v : Vec) (ms : List SearchMatch)
    (hembed : env.embedQuery q = Except.ok v)
    (hsearch : env.search v 3 = Except.ok ms)
    (hlen : ms.length ≤ 3) :
    queryDocument env (JsVal.str q)
        = (Except.ok ((ms.filter keepMatch).map matchTextStr),
            [Effect.embedQueryCall, Effect.searchCall])
    ∧ ((ms.filter keepMatch).map matchTextStr).length ≤ 3
    ∧ (∀ t ∈ (ms.filter keepMatch).map matchTextStr, t ≠ "")
    ∧ ((ms.filter keepMatch).map matchTextStr).Sublist (ms.map matchTextStr) := by
  refine ⟨?_, ?_, ?_, List.Sublist.map _ (List.filter_sublist ms)⟩
  · simp only [queryDocument, truthy, isString, strOf]
    simp [hq, hembed, hsearch]
  · calc ((ms.filter keepMatch).map matchTextStr).length
        = (ms.filter keepMatch).length := by rw [List.length_map]
      _ ≤ ms.length := List.length_filter_le _ _
      _ ≤ 3 := hlen
  · intro t ht
    obtain ⟨m, hm, rfl⟩ := List.mem_map.mp ht
    have hkeep : keepMatch m = true := List.of_mem_filter hm
    simp only [keepMatch, Bool.and_eq_true] at hkeep
    obtain ⟨htr, hstr⟩ := hkeep
    cases hv : metaTextVal m with
    | str t' =>
      rw [hv] at htr
      simp only [truthy] at htr
      simp only [matchTextStr, hv, strOf]
      simpa using htr
    | undef => rw [hv] at hstr; simp [isString] at hstr
    | null => rw [hv] at hstr; simp [isString] at hstr
    | bool b => rw [hv] at hstr; simp [isString] at hstr
    | num n => rw [hv] at hstr; simp [isString] at hstr
    | arr => rw [hv] at hstr; simp [isString] at hstr
    | obj => rw [hv] at hstr; simp [isString] at hstr

/-- Witness for C5 with one stored match carrying text "hello". -/
theorem c5_witness :
    queryDocument
        ⟨fun _ => Except.ok [], fun _ _ => Except.ok [⟨some ⟨some (JsVal.str "hello")⟩⟩],
          fun _ => Except.ok "", false⟩ (JsVal.str "q")
      = (Except.ok ["hello"], [Effect.embedQueryCall, Effect.searchCall]) :=
  (c5_retriever _ "q" (by decide) [] [⟨some ⟨some (JsVal.str "hello")⟩⟩] rfl rfl
    (by decide)).1

/-- C6: every chunker configuration with `chunkOverlap ≥ chunkSize` is
rejected by the configuration guard, and the repository's configuration
(500, 100) passes it. -/
theorem c6_splitter_guard (size overlap : Nat) (h : size ≤ overlap) :
    mkSplitter size overlap = Except.error "Cannot have chunkOverlap >= chunkSize"
    ∧ mkSplitter 500 100 = Except.ok (500, 100) := by
  exact ⟨by simp [mkSplitter, h], rfl⟩

/-- Witness for C6 at the degenerate configuration (500, 500). -/
theorem c6_witness :
    mkSplitter 500 500 = Except.error "Cannot have chunkOverlap >= chunkSize" :=
  (c6_splitter_guard 500 500 (by decide)).1

/-- C7: the upsert step partitions the records into consecutive batches of
at most 100, joins back to the record list, submits them sequentially, and a
failure on batch index `k` (0-based) attempts exactly the first `k + 1`
batches and leaves exactly the records of the first `k` batches durably
stored — a prefix of the records, with no rollback. -/
theorem c7_batched_upsert (records : List PineRecord) (ok : Nat → Bool) (k : Nat)
    (hk : k < (batches records).length)
    (hbefore : ∀ j, j < k → ok j = true) (hfail : ok k = false) :
    (batches records).flatten = records
    ∧ (∀ b ∈ batches records, b.length ≤ 100)
    ∧ runUpserts ok 0 (batches records)
        = ((batches records).take (k + 1), ((batches records).take k).flatten, false)
    ∧ (∃ t, ((batches records).take k).flatten ++ t = records) := by
  refine ⟨flatten_batches records, fun b hb => (batches_mem hb).1, ?_, ?_⟩
  · refine runUpserts_fail_spec ok (batches records) 0 k hk ?_ ?_
    · intro j hj; simpa using hbefore j hj
    · simpa using hfail
  · refine ⟨((batches records).drop k).flatten, ?_⟩
    rw [← List.flatten_append, List.take_append_drop, flatten_batches]

/-- Witness for C7: one record, first upsert call fails. -/
theorem c7_witness :
    runUpserts (fun _ => false) 0 (batches [(⟨"id", [], "text", "ts"⟩ : PineRecord)])
      = ((batches [(⟨"id", [], "text", "ts"⟩ : PineRecord)]).take 1, [], false) :=
  (c7_batched_upsert [⟨"id", [], "text", "ts"⟩] (fun _ => false) 0
    (by simp [batches]) (fun j hj => absurd hj (Nat.not_lt_zero j)) rfl).2.2.1

/-- C8: calling the answer generator with an empty context fails with the
no-context error and issues no LLM call; with non-empty context the error
branch is not taken and exactly one LLM call with the built prompt is
issued. -/
theorem c8_generateAnswer_guard (llm : String → Except String String) (q : String)
    (ctx : List String) :
    (ctx = [] → generateAnswer llm q ctx
        = (Except.error "No context available for answer generation", []))
    ∧ (ctx ≠ [] → generateAnswer llm q ctx
        = (llm (buildPrompt q ctx), [Effect.llmCall (buildPrompt q ctx)])) := by
  constructor
  · intro h; subst h; rfl
  · intro h
    have hz : ctx.length ≠ 0 := by simpa [List.length_eq_zero] using h
    simp [generateAnswer, hz]

/-- Witness for C8 at an empty context. -/
theorem c8_witness :
    generateAnswer (fun _ => Except.ok "ans") "q" []
      = (Except.error "No context available for answer generation", []) :=
  (c8_generateAnswer_guard (fun _ => Except.ok "ans") "q" []).1 rfl

/-- C9: within one upsert call the record ids built for the chunks are
pairwise distinct, whatever the per-record timestamp and random noise turn
out to be, so no record silently overwrites another in that call. -/
theorem c9_record_ids_distinct (chunks : List String) (vectors : List Vec)
    (idNoise ts : Nat → String) :
    ((mkRecords chunks vectors idNoise ts).map PineRecord.id).Nodup := by
  rw [mkRecords_map_id]
  exact ids_nodup_aux chunks idNoise

/-- C10: the empty string is falsy, so an empty `documentText` or `question`
is rejected by the presence check with the "required" 400 response and no
downstream component is invoked. -/
theorem c10_empty_string_rejected (ienv : IndexEnv) (aenv : AnswerEnv) :
    indexDocument ienv (JsVal.str "") = (clientErr "Document text is required.", [])
    ∧ answerQuestion aenv (JsVal.str "") = (clientErr "Question is required.", []) :=
  ⟨rfl, rfl⟩

end Rag
